import Mathlib

/-!
Shallow embedding of `src/db.rs` from the rgb-node repository: the content-addressed
persistence layer (`Db`) over a key/value store transport.

Modelling choices:
* Byte strings (`Vec<u8>`) are `List Nat`, and 32-byte keys (`Slice32`) are also
  `List Nat`; the fixed 32-byte length plays no role in the verified properties.
* The store transport (`store_rpc::Client`) backing state is a pure map from
  (table name, key) to optional raw bytes; transport-level I/O failure is
  abstracted away (reads and writes on an established connection succeed), while
  decode/encode failures of the object codec are kept, matching the `?`
  propagation in the source.
* The Rust trait bounds `StrictEncode + StrictDecode` become an explicit codec
  record, and `MergeReveal` becomes an explicit merge function returning
  `Option` (`none` models the `Err` case of `merge_reveal`).
* The Rust `.expect(...)` in `store_merge`/`store_merge_h` aborts the process;
  that is modelled by a distinguished `Outcome.panicked` result, separate from
  returned `DaemonError` values.
-/

/-- Raw byte strings stored in the transport (`Vec<u8>` in the source). -/
abbrev Bytes := List Nat

/-- 32-byte keys (`amplify::Slice32` in the source); length abstracted. -/
abbrev Slice32 := List Nat

/-- Per-call error type of the daemon (`DaemonError` in the crate): decode
failures of stored bytes and encode/IO failures, as propagated by `?`. -/
inductive DaemonError where
  | decode (msg : String)
  | io (msg : String)
deriving DecidableEq, Repr

/-- Launch-time error type (`LaunchError` in the crate), produced on transport
connection failure or table registration failure. -/
inductive LaunchError where
  | store_rpc (msg : String)
deriving DecidableEq, Repr

/-- The `StrictEncode`/`StrictDecode` trait pair of the source, bundled: a
deterministic serializer and a deserializer, each fallible. -/
structure StrictCodec (α : Type) where
  strict_serialize : α → Except DaemonError Bytes
  strict_decode : Bytes → Except DaemonError α

/-- Backing state of the store transport: each logical table maps keys to raw
bytes (`store_rpc::Client`'s remote table state, viewed abstractly). -/
def StoreMap : Type := String → Slice32 → Option Bytes

/-- The transport's "put bytes by key in table" operation. -/
def StoreMap.put (s : StoreMap) (table : String) (key : Slice32) (v : Bytes) :
    StoreMap :=
  fun t' k' => if t' = table ∧ k' = key then some v else s t' k'

/-- A transport state with no stored bytes anywhere. -/
def StoreMap.empty : StoreMap := fun _ _ => none

/-- Result of `store_merge`/`store_merge_h`: a normal return carrying the new
transport state, a returned `DaemonError`, or a process abort
(`.expect`, i.e. a Rust panic) carrying the panic message. -/
inductive Outcome where
  | ok (s : StoreMap)
  | error (e : DaemonError)
  | panicked (msg : String)

/-- The `Db` struct of the source: a handle owning the store transport client.
The Rust field is named `store`; here it is `client` because `Db.store` is the
name of the store method below. -/
structure Db (Client : Type) where
  client : Client

namespace Db

/-- `Db::SCHEMATA` -/
def SCHEMATA : String := "schemata"

/-- `Db::BUNDLES` -/
def BUNDLES : String := "bundles"

/-- `Db::GENESIS` -/
def GENESIS : String := "genesis"

/-- `Db::TRANSITIONS` -/
def TRANSITIONS : String := "transitions"

/-- `Db::ANCHORS` (the source defines it as the string `"transitions"`). -/
def ANCHORS : String := "transitions"

/-- `Db::EXTENSIONS` -/
def EXTENSIONS : String := "extensions"

/-- `Db::ATTACHMENT_CHUNKS` -/
def ATTACHMENT_CHUNKS : String := "chunks"

/-- `Db::ATTACHMENT_INDEX` -/
def ATTACHMENT_INDEX : String := "attachments"

/-- `Db::ALU_LIBS` -/
def ALU_LIBS : String := "alu"

/-- The nine fixed logical table identifiers, in the order `Db::with` registers
them. -/
def TABLES : List String :=
  [SCHEMATA, BUNDLES, GENESIS, TRANSITIONS, ANCHORS, EXTENSIONS,
   ATTACHMENT_CHUNKS, ATTACHMENT_INDEX, ALU_LIBS]

/-- `Db::with`: connect to the store transport, then register (`use_table`)
each of the nine fixed tables in order, failing fast on the first error.
The transport is abstract: `connect` models `store_rpc::Client::with(endpoint)`
and `use_table` models `Client::use_table`, both already composed with the
`map_err(LaunchError::from)` of the source. -/
def with' {Client : Type} (connect : Except LaunchError Client)
    (use_table : Client → String → Except LaunchError Client) :
    Except LaunchError (Db Client) := do
  let store ← connect
  let store ← TABLES.foldlM use_table store
  return ⟨store⟩

/-- `Db::retrieve`: look up raw bytes at (table, key); absent bytes give
`none`, present bytes are strict-decoded (failing with the codec's error).
The tagged-hash key has already been converted to its 32-byte slice. -/
def retrieve {α : Type} (c : StrictCodec α) (table : String) (key : Slice32)
    (s : StoreMap) : Except DaemonError (Option α) :=
  match s table key with
  | some data =>
    match c.strict_decode data with
    | .ok obj => .ok (some obj)
    | .error e => .error e
  | none => .ok none

/-- `Db::retrieve_h`: same body as `retrieve`, entered with a plain 32-byte
hash key instead of a tagged-commitment key. -/
def retrieve_h {α : Type} (c : StrictCodec α) (table : String) (key : Slice32)
    (s : StoreMap) : Except DaemonError (Option α) :=
  match s table key with
  | some data =>
    match c.strict_decode data with
    | .ok obj => .ok (some obj)
    | .error e => .error e
  | none => .ok none

/-- `Db::store`: strict-serialize the object and write the bytes at
(table, key), overwriting any prior value. -/
def store {α : Type} (c : StrictCodec α) (table : String) (key : Slice32)
    (data : α) (s : StoreMap) : Except DaemonError StoreMap :=
  match c.strict_serialize data with
  | .ok bytes => .ok (s.put table key bytes)
  | .error e => .error e

/-- `Db::store_h`: same body as `store`, entered with a plain hash key. -/
def store_h {α : Type} (c : StrictCodec α) (table : String) (key : Slice32)
    (data : α) (s : StoreMap) : Except DaemonError StoreMap :=
  match c.strict_serialize data with
  | .ok bytes => .ok (s.put table key bytes)
  | .error e => .error e

/-- The panic message of the `.expect` call in `store_merge`/`store_merge_h`. -/
def mergePanicMsg : String :=
  "merge-revealed objects does not match; usually it means hacked database"

/-- `Db::store_merge`: retrieve the existing object at (table, key), fall back
to the new object itself when absent (`unwrap_or_else`), merge-reveal the new
object with it (`.expect` aborts on merge failure), and store the result at
(`Db::GENESIS`, key). `merge_reveal new stored` models
`new_obj.merge_reveal(stored_obj)`. -/
def store_merge {α : Type} (c : StrictCodec α)
    (merge_reveal : α → α → Option α) (table : String) (key : Slice32)
    (new_obj : α) (s : StoreMap) : Outcome :=
  match retrieve c table key s with
  | .error e => .error e
  | .ok ret =>
    let stored_obj := ret.getD new_obj
    match merge_reveal new_obj stored_obj with
    | none => .panicked mergePanicMsg
    | some obj =>
      match store c GENESIS key obj s with
      | .ok s' => .ok s'
      | .error e => .error e

/-- `Db::store_merge_h`: same as `store_merge` with plain hash keys, going
through `retrieve_h`/`store_h`; it also writes to `Db::GENESIS`. -/
def store_merge_h {α : Type} (c : StrictCodec α)
    (merge_reveal : α → α → Option α) (table : String) (key : Slice32)
    (new_obj : α) (s : StoreMap) : Outcome :=
  match retrieve_h c table key s with
  | .error e => .error e
  | .ok ret =>
    let stored_obj := ret.getD new_obj
    match merge_reveal new_obj stored_obj with
    | none => .panicked mergePanicMsg
    | some obj =>
      match store_h c GENESIS key obj s with
      | .ok s' => .ok s'
      | .error e => .error e

/-- Caller-side sequencing: merge-store a list of object versions in turn at
one (table, key), stopping at the first error or panic. Used to state the
order-independence property of the spec. -/
def store_merge_all {α : Type} (c : StrictCodec α)
    (merge_reveal : α → α → Option α) (table : String) (key : Slice32)
    (objs : List α) (s : StoreMap) : Outcome :=
  match objs with
  | [] => .ok s
  | x :: xs =>
    match store_merge c merge_reveal table key x s with
    | .ok s' => store_merge_all c merge_reveal table key xs s'
    | o => o

end Db

/-! ## Basic lemmas about the transport map and the two key-kind entry points -/

theorem StoreMap.put_self (s : StoreMap) (t : String) (k : Slice32) (v : Bytes) :
    StoreMap.put s t k v t k = some v := by
  unfold StoreMap.put
  simp

theorem StoreMap.put_other (s : StoreMap) (t : String) (k : Slice32) (v : Bytes)
    (t' : String) (k' : Slice32) (h : ¬(t' = t ∧ k' = k)) :
    StoreMap.put s t k v t' k' = s t' k' := by
  unfold StoreMap.put
  simp [h]

theorem StoreMap.put_put (s : StoreMap) (t : String) (k : Slice32) (v : Bytes) :
    StoreMap.put (StoreMap.put s t k v) t k v = StoreMap.put s t k v := by
  funext t' k'
  unfold StoreMap.put
  split <;> rfl

theorem Db.retrieve_h_eq : @Db.retrieve_h = @Db.retrieve := rfl

theorem Db.store_h_eq : @Db.store_h = @Db.store := rfl

theorem Db.store_merge_h_eq : @Db.store_merge_h = @Db.store_merge := rfl

/-- Characterization of a successful `store_merge`: it succeeds exactly when
the retrieve from the caller's table succeeds, the merge of the new object
with the retrieved one (or with the new object itself when absent) succeeds,
and the merged object serializes; the new state is the old one with the
serialized merge result written at (`GENESIS`, key). -/
theorem Db.store_merge_ok_iff {α : Type} (c : StrictCodec α)
    (m : α → α → Option α) (table : String) (key : Slice32) (new_obj : α)
    (s s' : StoreMap) :
    Db.store_merge c m table key new_obj s = .ok s' ↔
      ∃ ret obj bytes,
        Db.retrieve c table key s = .ok ret ∧
        m new_obj (ret.getD new_obj) = some obj ∧
        c.strict_serialize obj = .ok bytes ∧
        s' = StoreMap.put s Db.GENESIS key bytes := by
  constructor
  · intro h
    unfold Db.store_merge at h
    split at h
    · simp at h
    · rename_i ret hret
      dsimp only at h
      split at h
      · simp at h
      · rename_i obj hobj
        unfold Db.store at h
        split at h
        · rename_i sres hsres
          split at hsres
          · rename_i bytes hbytes
            cases h
            injection hsres with hput
            exact ⟨ret, obj, bytes, hret, hobj, hbytes, hput.symm⟩
          · simp at hsres
        · rename_i e he
          simp at h
  · rintro ⟨ret, obj, bytes, hret, hobj, hbytes, hs'⟩
    unfold Db.store_merge Db.store
    rw [hret]
    simp only [hobj, hbytes, hs']

/-! ## Concrete codecs, merges, keys and states used in witnesses and
counterexamples -/

/-- A codec for `Nat` objects: `n` encodes as the singleton byte string `[n]`;
any other shape is rejected on decode. Decoding inverts encoding. -/
def natCodec : StrictCodec Nat where
  strict_serialize := fun n => .ok [n]
  strict_decode := fun bs =>
    match bs with
    | [n] => .ok n
    | _ => .error (.decode "unexpected byte string shape")

/-- A codec for (committed root, revealed fields) pairs, encoded as the
two-byte string `[root, revealed]`. Decoding inverts encoding. -/
def pairCodec : StrictCodec (Nat × Nat) where
  strict_serialize := fun p => .ok [p.1, p.2]
  strict_decode := fun bs =>
    match bs with
    | [a, b] => .ok (a, b)
    | _ => .error (.decode "unexpected byte string shape")

/-- A merge-reveal on (committed root, revealed-field bitmask) pairs: merging
succeeds iff both operands commit to the same root and then unions the
revealed fields; operands with different roots are a consistency conflict
(`none`). Idempotent, commutative and associative where defined. -/
def rootMerge : Nat × Nat → Nat × Nat → Option (Nat × Nat) :=
  fun x y => if x.1 = y.1 then some (x.1, x.2 ||| y.2) else none

/-- An idempotent but non-absorbing merge on `Nat`: merging equal objects is
the identity, merging different objects adds them. -/
def addMerge : Nat → Nat → Option Nat :=
  fun x y => if x = y then some x else some (x + y)

/-- A total idempotent, commutative, associative merge on `Nat`. -/
def maxMerge : Nat → Nat → Option Nat := fun x y => some (max x y)

/-- A concrete key (32-byte length abstracted). -/
def kex : Slice32 := [7]

/-- `maxMerge` is absorbing: remerging an object into a previous merge result
is a no-op. -/
theorem maxMerge_absorb :
    ∀ x y z, maxMerge x y = some z → maxMerge x z = some z := by
  intro x y z h
  simp only [maxMerge, Option.some_inj] at h ⊢
  subst h
  exact max_eq_right (le_max_left x y)

/-- Decoding inverts encoding for `natCodec`. -/
theorem natCodec_roundtrip :
    ∀ a bytes, natCodec.strict_serialize a = .ok bytes →
      natCodec.strict_decode bytes = .ok a := by
  intro a bytes h
  injection h with h1
  subst h1
  rfl

/-! ## C3: distinctness of the nine table identifiers -/

/-- C3: the claim states the nine fixed logical table identifiers are pairwise
distinct strings; in the source `Db::ANCHORS` is defined as the string
`"transitions"`, identical to `Db::TRANSITIONS`, so the list of the nine
identifiers contains a duplicate and the claim fails on the code. -/
theorem c3_anchors_duplicates_transitions :
    Db.ANCHORS = Db.TRANSITIONS ∧ ¬ Db.TABLES.Nodup := by
  refine ⟨rfl, ?_⟩
  decide

/-! ## C1: behavior of `store_merge` on a committed-root conflict -/

/-- Transport state for the conflict scenario: the object (root 1, nothing
revealed) is stored at (`"bundles"`, `kex`). -/
def s0conflict : StoreMap := StoreMap.empty.put Db.BUNDLES kex [1, 0]

/-- C1: the claim states that on a committed-root conflict `store_merge` (and
`store_merge_h`) returns a `ConsistencyViolation` error value and does not
abort the process. On the concrete conflicting input below — stored root 1,
new object root 2, at the same key — the code instead hits the `.expect` call
and aborts the process (a Rust panic), returning no error value at all. -/
theorem c1_conflict_panics_rather_than_returning_error :
    Db.store_merge pairCodec rootMerge Db.BUNDLES kex (2, 0) s0conflict =
      Outcome.panicked Db.mergePanicMsg ∧
    Db.store_merge_h pairCodec rootMerge Db.BUNDLES kex (2, 0) s0conflict =
      Outcome.panicked Db.mergePanicMsg := by
  constructor <;> rfl

/-! ## C2: a successful merge-store reads from the caller's table but writes
to the genesis table -/

/-- C2: `store_merge c m table key new_obj s` succeeds with final state `s'`
exactly when the retrieve from the caller-supplied `table` succeeds, merging
the new object with the retrieved baseline succeeds, and the result
serializes; and then `s'` is `s` with the serialized merge result written at
(`"genesis"`, key) — the caller's table receives no write, whatever `table`
is. Likewise for `store_merge_h` via `retrieve_h`. -/
theorem c2_store_merge_reads_table_writes_genesis {α : Type}
    (c : StrictCodec α) (m : α → α → Option α) (table : String)
    (key : Slice32) (new_obj : α) (s s' : StoreMap) :
    (Db.store_merge c m table key new_obj s = .ok s' ↔
      ∃ ret obj bytes,
        Db.retrieve c table key s = .ok ret ∧
        m new_obj (ret.getD new_obj) = some obj ∧
        c.strict_serialize obj = .ok bytes ∧
        s' = StoreMap.put s Db.GENESIS key bytes) ∧
    (Db.store_merge_h c m table key new_obj s = .ok s' ↔
      ∃ ret obj bytes,
        Db.retrieve_h c table key s = .ok ret ∧
        m new_obj (ret.getD new_obj) = some obj ∧
        c.strict_serialize obj = .ok bytes ∧
        s' = StoreMap.put s Db.GENESIS key bytes) := by
  constructor
  · exact Db.store_merge_ok_iff c m table key new_obj s s'
  · rw [Db.store_merge_h_eq, Db.retrieve_h_eq]
    exact Db.store_merge_ok_iff c m table key new_obj s s'

/-! ## C4: is a second identical merge-store a no-op? -/

/-- Transport state for the C4 counterexample: the byte string `[1]` (the
object `1`) stored at (`"genesis"`, `kex`). -/
def s0gen : StoreMap := StoreMap.empty.put Db.GENESIS kex [1]

/-- C4 counterexample: `addMerge` is idempotent, yet applying
`store_merge "genesis" kex 2` twice from `s0gen` leaves `[5]` at the written
key (`"genesis"`, `kex`) while applying it once leaves `[3]`: with a merge
that is idempotent but not absorbing, the second application re-merges into
the first result and changes the stored object, refuting the claim as stated
for the table `"genesis"`. -/
theorem c4_twice_differs_from_once :
    (∀ x, addMerge x x = some x) ∧
    ∃ s1 s2,
      Db.store_merge natCodec addMerge Db.GENESIS kex 2 s0gen = .ok s1 ∧
      Db.store_merge natCodec addMerge Db.GENESIS kex 2 s1 = .ok s2 ∧
      s1 Db.GENESIS kex = some [3] ∧
      s2 Db.GENESIS kex = some [5] ∧
      s2 Db.GENESIS kex ≠ s1 Db.GENESIS kex := by
  refine ⟨fun x => by simp [addMerge], ?_⟩
  refine ⟨StoreMap.put s0gen Db.GENESIS kex [3],
    StoreMap.put (StoreMap.put s0gen Db.GENESIS kex [3]) Db.GENESIS kex [5],
    rfl, rfl, StoreMap.put_self _ _ _ _, StoreMap.put_self _ _ _ _, ?_⟩
  rw [StoreMap.put_self, StoreMap.put_self]
  decide

/-- C4 (amended): for every table, key and object, if the merge operation is
absorbing — remerging an object into a previous merge result is a no-op,
`m x y = some z → m x z = some z`, which follows from the idempotence,
commutativity and associativity the spec requires of merge — and decoding
inverts encoding, then a successful `store_merge` applied a second time with
the same arguments succeeds and leaves the transport state (in particular the
stored result at the written key) exactly as after the first application. -/
theorem c4_amended_second_store_merge_noop {α : Type} (c : StrictCodec α)
    (m : α → α → Option α)
    (habs : ∀ x y z, m x y = some z → m x z = some z)
    (hcodec : ∀ a bytes, c.strict_serialize a = .ok bytes →
      c.strict_decode bytes = .ok a)
    (table : String) (key : Slice32) (X : α) (s s1 : StoreMap)
    (h : Db.store_merge c m table key X s = .ok s1) :
    Db.store_merge c m table key X s1 = .ok s1 := by
  obtain ⟨ret, obj, bytes, hret, hobj, hbytes, hs1⟩ :=
    (Db.store_merge_ok_iff c m table key X s s1).mp h
  apply (Db.store_merge_ok_iff c m table key X s1 s1).mpr
  by_cases htab : table = Db.GENESIS
  · subst htab
    refine ⟨some obj, obj, bytes, ?_, ?_, hbytes, ?_⟩
    · subst hs1
      simp only [Db.retrieve, StoreMap.put_self, hcodec obj bytes hbytes]
    · simp only [Option.getD_some]
      exact habs X (ret.getD X) obj hobj
    · subst hs1
      exact (StoreMap.put_put s Db.GENESIS key bytes).symm
  · have hcell : s1 table key = s table key := by
      subst hs1
      exact StoreMap.put_other s Db.GENESIS key bytes table key
        (fun hc => htab hc.1)
    refine ⟨ret, obj, bytes, ?_, hobj, hbytes, ?_⟩
    · show Db.retrieve c table key s1 = _
      unfold Db.retrieve
      rw [hcell]
      exact hret
    · subst hs1
      exact (StoreMap.put_put s Db.GENESIS key bytes).symm

/-- State after the first merge-store of the C4 witness run. -/
def c4wS1 : StoreMap := StoreMap.empty.put Db.GENESIS kex [2]

/-- C4 witness: a concrete run with the absorbing merge `maxMerge` and the
round-tripping codec `natCodec` in which the second identical merge-store is
a no-op. -/
theorem c4_amended_second_store_merge_noop_witness :
    (∀ x y z, maxMerge x y = some z → maxMerge x z = some z) ∧
    (∀ a bytes, natCodec.strict_serialize a = .ok bytes →
      natCodec.strict_decode bytes = .ok a) ∧
    Db.store_merge natCodec maxMerge Db.BUNDLES kex 2 StoreMap.empty =
      .ok c4wS1 ∧
    Db.store_merge natCodec maxMerge Db.BUNDLES kex 2 c4wS1 = .ok c4wS1 :=
  ⟨maxMerge_absorb, natCodec_roundtrip, rfl,
    c4_amended_second_store_merge_noop natCodec maxMerge maxMerge_absorb
      natCodec_roundtrip Db.BUNDLES kex 2 StoreMap.empty c4wS1 rfl⟩

/-! ## C5: order independence of merge-storing several versions -/

/-- C5: merge-storing the two mutually consistent versions (1, 1) and (1, 2)
(same committed root 1, different revealed fields, union (1, 3)) at table
`"bundles"` in the two possible orders ends with different objects at the
written key: because the code reads its merge baseline from the caller's
table — which its own writes never touch — and writes to `"genesis"`, each
call merges the new version only with the stale baseline, so the final stored
object is just the last version stored, not the converged union, and the two
permutations disagree. -/
theorem c5_permutations_disagree :
    ∃ s1 s2,
      Db.store_merge_all pairCodec rootMerge Db.BUNDLES kex
        [(1, 1), (1, 2)] StoreMap.empty = .ok s1 ∧
      Db.store_merge_all pairCodec rootMerge Db.BUNDLES kex
        [(1, 2), (1, 1)] StoreMap.empty = .ok s2 ∧
      s1 Db.GENESIS kex = some [1, 2] ∧
      s2 Db.GENESIS kex = some [1, 1] ∧
      s1 Db.GENESIS kex ≠ s2 Db.GENESIS kex := by
  refine ⟨StoreMap.put (StoreMap.put StoreMap.empty Db.GENESIS kex [1, 1])
      Db.GENESIS kex [1, 2],
    StoreMap.put (StoreMap.put StoreMap.empty Db.GENESIS kex [1, 2])
      Db.GENESIS kex [1, 1],
    rfl, rfl, StoreMap.put_self _ _ _ _, StoreMap.put_self _ _ _ _, ?_⟩
  rw [StoreMap.put_self, StoreMap.put_self]
  decide

/-! ## C6: absent key makes the new object its own merge baseline -/

/-- C6: when no object exists at (table, key), `store_merge` (and
`store_merge_h`) falls back to the new object `X` itself as merge baseline
and computes `merge X X`; with an idempotent merge (`merge X X = some X`) the
call succeeds and the persisted bytes are exactly the encoding of `X` (written
at the genesis table, where a retrieve decodes them back to `X`). -/
theorem c6_absent_key_merges_with_itself {α : Type} (c : StrictCodec α)
    (m : α → α → Option α) (table : String) (key : Slice32) (X : α)
    (s : StoreMap) (bytes : Bytes)
    (habsent : s table key = none)
    (hidem : m X X = some X)
    (henc : c.strict_serialize X = .ok bytes)
    (hdec : c.strict_decode bytes = .ok X) :
    Db.store_merge c m table key X s =
      .ok (StoreMap.put s Db.GENESIS key bytes) ∧
    Db.store_merge_h c m table key X s =
      .ok (StoreMap.put s Db.GENESIS key bytes) ∧
    Db.retrieve c Db.GENESIS key (StoreMap.put s Db.GENESIS key bytes) =
      .ok (some X) := by
  have hmain : Db.store_merge c m table key X s =
      .ok (StoreMap.put s Db.GENESIS key bytes) := by
    apply (Db.store_merge_ok_iff c m table key X s _).mpr
    refine ⟨none, X, bytes, ?_, ?_, henc, rfl⟩
    · simp [Db.retrieve, habsent]
    · simpa using hidem
  refine ⟨hmain, ?_, ?_⟩
  · rw [Db.store_merge_h_eq]
    exact hmain
  · simp [Db.retrieve, StoreMap.put_self, hdec]

/-- C6 witness: merge-storing the object `2` at an absent key with the
idempotent `maxMerge` persists exactly `2`. -/
theorem c6_absent_key_merges_with_itself_witness :
    StoreMap.empty Db.BUNDLES kex = none ∧
    maxMerge 2 2 = some 2 ∧
    natCodec.strict_serialize 2 = .ok [2] ∧
    natCodec.strict_decode [2] = .ok 2 ∧
    Db.store_merge natCodec maxMerge Db.BUNDLES kex 2 StoreMap.empty =
      .ok (StoreMap.put StoreMap.empty Db.GENESIS kex [2]) ∧
    Db.retrieve natCodec Db.GENESIS kex
      (StoreMap.put StoreMap.empty Db.GENESIS kex [2]) = .ok (some 2) :=
  ⟨rfl, rfl, rfl, rfl,
    (c6_absent_key_merges_with_itself natCodec maxMerge Db.BUNDLES kex 2
      StoreMap.empty [2] rfl rfl rfl rfl).1,
    (c6_absent_key_merges_with_itself natCodec maxMerge Db.BUNDLES kex 2
      StoreMap.empty [2] rfl rfl rfl rfl).2.2⟩

/-! ## C7: store/retrieve round trip -/

/-- C7: assuming the external codec is deterministic and decoding inverts
encoding at the stored object (`strict_serialize o = .ok bytes` and
`strict_decode bytes = .ok o`), a successful `store table key o` followed by
a retrieve at the same (table, key) returns exactly `some o`, through either
key-kind entry point. -/
theorem c7_store_retrieve_roundtrip {α : Type} (c : StrictCodec α)
    (table : String) (key : Slice32) (o : α) (s s' : StoreMap) (bytes : Bytes)
    (henc : c.strict_serialize o = .ok bytes)
    (hdec : c.strict_decode bytes = .ok o)
    (h : Db.store c table key o s = .ok s') :
    Db.retrieve c table key s' = .ok (some o) ∧
    Db.retrieve_h c table key s' = .ok (some o) := by
  have hs' : s' = StoreMap.put s table key bytes := by
    unfold Db.store at h
    rw [henc] at h
    dsimp only at h
    injection h with h1
    exact h1.symm
  subst hs'
  constructor
  · simp [Db.retrieve, StoreMap.put_self, hdec]
  · rw [Db.retrieve_h_eq]
    simp [Db.retrieve, StoreMap.put_self, hdec]

/-- C7 witness: storing the object `5` at (`"schemata"`, `kex`) and retrieving
it returns `some 5`. -/
theorem c7_store_retrieve_roundtrip_witness :
    natCodec.strict_serialize 5 = .ok [5] ∧
    natCodec.strict_decode [5] = .ok 5 ∧
    Db.store natCodec Db.SCHEMATA kex 5 StoreMap.empty =
      .ok (StoreMap.put StoreMap.empty Db.SCHEMATA kex [5]) ∧
    Db.retrieve natCodec Db.SCHEMATA kex
      (StoreMap.put StoreMap.empty Db.SCHEMATA kex [5]) = .ok (some 5) :=
  ⟨rfl, rfl, rfl,
    (c7_store_retrieve_roundtrip natCodec Db.SCHEMATA kex 5 StoreMap.empty
      (StoreMap.put StoreMap.empty Db.SCHEMATA kex [5]) [5] rfl rfl rfl).1⟩

/-! ## C8: retrieve on absent and on malformed bytes -/

/-- C8: for every table and key, when the transport holds no bytes at
(table, key), `retrieve` and `retrieve_h` return `none` and not an error; and
when it holds bytes the codec rejects, they return the codec's decode error
rather than any object. -/
theorem c8_retrieve_absent_none_malformed_error {α : Type} (c : StrictCodec α)
    (table : String) (key : Slice32) (s : StoreMap) (bytes : Bytes)
    (e : DaemonError) :
    (s table key = none →
      Db.retrieve c table key s = (.ok none : Except DaemonError (Option α)) ∧
      Db.retrieve_h c table key s = .ok none) ∧
    (s table key = some bytes → c.strict_decode bytes = .error e →
      Db.retrieve c table key s = .error e ∧
      Db.retrieve_h c table key s = .error e) := by
  constructor
  · intro h
    constructor <;> simp [Db.retrieve, Db.retrieve_h, h]
  · intro h hd
    constructor <;> simp [Db.retrieve, Db.retrieve_h, h, hd]

/-- Transport state holding a malformed (empty) byte string at
(`"bundles"`, `kex`). -/
def sMalformed : StoreMap := StoreMap.empty.put Db.BUNDLES kex []

/-- C8 witness: a never-written key retrieves as `none`, and a key holding
bytes that do not decode retrieves as the decode error. -/
theorem c8_retrieve_absent_none_malformed_error_witness :
    StoreMap.empty Db.BUNDLES kex = none ∧
    Db.retrieve natCodec Db.BUNDLES kex StoreMap.empty =
      (.ok none : Except DaemonError (Option Nat)) ∧
    sMalformed Db.BUNDLES kex = some [] ∧
    natCodec.strict_decode [] =
      .error (.decode "unexpected byte string shape") ∧
    Db.retrieve natCodec Db.BUNDLES kex sMalformed =
      .error (.decode "unexpected byte string shape") := by
  refine ⟨rfl, ?_, StoreMap.put_self _ _ _ _, rfl, ?_⟩
  · exact ((c8_retrieve_absent_none_malformed_error natCodec Db.BUNDLES kex
      StoreMap.empty [] (.decode "unexpected byte string shape")).1 rfl).1
  · exact ((c8_retrieve_absent_none_malformed_error natCodec Db.BUNDLES kex
      sMalformed [] (.decode "unexpected byte string shape")).2
      (StoreMap.put_self _ _ _ _) rfl).1

/-! ## C9: initialization registers all nine tables, all-or-nothing -/

/-- A registering model of `Client::use_table`: fail with `e` on tables in the
`bad` set, otherwise append the table to the client's registered list. -/
def regUse (bad : String → Bool) (e : LaunchError) :
    List String → String → Except LaunchError (List String) :=
  fun c t => if bad t then .error e else .ok (c ++ [t])

/-- Registering a list of tables succeeds, appending them all, when none of
them is bad. -/
theorem foldlM_regUse_ok (bad : String → Bool) (e : LaunchError) :
    ∀ (l : List String) (c0 : List String), (∀ t ∈ l, bad t = false) →
      List.foldlM (regUse bad e) c0 l = .ok (c0 ++ l)
  | [], c0, _ => by
    simp only [List.foldlM_nil, List.append_nil]
    rfl
  | t :: ts, c0, h => by
    have hbt : bad t = false := h t (by simp)
    have hrec := foldlM_regUse_ok bad e ts (c0 ++ [t])
      (fun t' ht' => h t' (by simp [ht']))
    simp only [List.foldlM_cons, regUse, hbt, Bool.false_eq_true, if_false]
    rw [show ((Except.ok (c0 ++ [t]) : Except LaunchError (List String)) >>=
      fun x => List.foldlM (regUse bad e) x ts) =
      List.foldlM (regUse bad e) (c0 ++ [t]) ts from rfl, hrec]
    simp

/-- Registering a list of tables fails with `e` as soon as some table in it is
bad. -/
theorem foldlM_regUse_error (bad : String → Bool) (e : LaunchError) :
    ∀ (l : List String) (c0 : List String), (∃ t ∈ l, bad t = true) →
      List.foldlM (regUse bad e) c0 l = .error e
  | [], _, h => by simp at h
  | t :: ts, c0, h => by
    by_cases hbt : bad t = true
    · simp only [List.foldlM_cons, regUse, hbt, if_true]
      rfl
    · have hbt' : bad t = false := by simpa using hbt
      obtain ⟨t', ht', hb'⟩ := h
      rcases List.mem_cons.mp ht' with rfl | hmem
      · exact absurd hb' hbt
      · have hrec := foldlM_regUse_error bad e ts (c0 ++ [t]) ⟨t', hmem, hb'⟩
        simp only [List.foldlM_cons, regUse, hbt', Bool.false_eq_true,
          if_false]
        rw [show ((Except.ok (c0 ++ [t]) : Except LaunchError (List String))
          >>= fun x => List.foldlM (regUse bad e) x ts) =
          List.foldlM (regUse bad e) (c0 ++ [t]) ts from rfl, hrec]

/-- C9: `Db::with` propagates a connection failure as the launch error; and
with a registering `use_table`, it returns a handle exactly when every one of
the nine fixed tables registers — the handle's client has had all nine tables
registered on it, in order — and returns the launch error exactly when some
of the nine tables fails to register (all-or-nothing). -/
theorem c9_with_registers_all_nine_tables_or_fails :
    (∀ (Client : Type) (e : LaunchError)
        (use_table : Client → String → Except LaunchError Client),
      Db.with' (Except.error e) use_table = .error e) ∧
    (∀ (bad : String → Bool) (e : LaunchError) (c0 : List String),
      (Db.with' (.ok c0) (regUse bad e) = .ok ⟨c0 ++ Db.TABLES⟩ ↔
        ∀ t ∈ Db.TABLES, bad t = false) ∧
      (Db.with' (.ok c0) (regUse bad e) = .error e ↔
        ∃ t ∈ Db.TABLES, bad t = true)) := by
  constructor
  · intro Client e use_table
    rfl
  · intro bad e c0
    have hw : Db.with' (.ok c0) (regUse bad e) =
        (List.foldlM (regUse bad e) c0 Db.TABLES).bind
          (fun store => .ok ⟨store⟩) := rfl
    have hdisj : (∀ t ∈ Db.TABLES, bad t = false) ∨
        (∃ t ∈ Db.TABLES, bad t = true) := by
      by_cases h : ∀ t ∈ Db.TABLES, bad t = false
      · exact Or.inl h
      · push_neg at h
        obtain ⟨t, ht, hb⟩ := h
        exact Or.inr ⟨t, ht, by simpa using hb⟩
    constructor
    · constructor
      · intro h
        rcases hdisj with hall | hsome
        · exact hall
        · rw [hw, foldlM_regUse_error bad e Db.TABLES c0 hsome] at h
          simp [Except.bind] at h
      · intro hall
        rw [hw, foldlM_regUse_ok bad e Db.TABLES c0 hall]
        rfl
    · constructor
      · intro h
        rcases hdisj with hall | hsome
        · rw [hw, foldlM_regUse_ok bad e Db.TABLES c0 hall] at h
          simp [Except.bind] at h
        · exact hsome
      · intro hsome
        rw [hw, foldlM_regUse_error bad e Db.TABLES c0 hsome]
        rfl

/-! ## C10: a merge-store leaves the caller's table untouched -/

/-- C10: for every table other than `"genesis"`, a successful `store_merge`
(or `store_merge_h`) leaves the value at (table, key) — and every other cell
outside (`"genesis"`, key) — unchanged: retrieving (table, key) afterwards
gives the same result as before, and the serialized merged object is
observable only at (`"genesis"`, key). -/
theorem c10_store_merge_frame {α : Type} (c : StrictCodec α)
    (m : α → α → Option α) (table : String) (key : Slice32) (new_obj : α)
    (s s' : StoreMap)
    (htab : table ≠ Db.GENESIS)
    (h : Db.store_merge c m table key new_obj s = .ok s' ∨
         Db.store_merge_h c m table key new_obj s = .ok s') :
    Db.retrieve c table key s' = Db.retrieve c table key s ∧
    (∀ t' k', ¬(t' = Db.GENESIS ∧ k' = key) → s' t' k' = s t' k') ∧
    ∃ ret obj bytes,
      Db.retrieve c table key s = .ok ret ∧
      m new_obj (ret.getD new_obj) = some obj ∧
      c.strict_serialize obj = .ok bytes ∧
      s' Db.GENESIS key = some bytes := by
  have h' : Db.store_merge c m table key new_obj s = .ok s' := by
    rcases h with h | h
    · exact h
    · rw [Db.store_merge_h_eq] at h
      exact h
  obtain ⟨ret, obj, bytes, hret, hobj, hbytes, hs'⟩ :=
    (Db.store_merge_ok_iff c m table key new_obj s s').mp h'
  subst hs'
  refine ⟨?_, ?_, ret, obj, bytes, hret, hobj, hbytes, ?_⟩
  · unfold Db.retrieve
    rw [StoreMap.put_other s Db.GENESIS key bytes table key
      (fun hc => htab hc.1)]
  · intro t' k' hne
    exact StoreMap.put_other s Db.GENESIS key bytes t' k' hne
  · exact StoreMap.put_self s Db.GENESIS key bytes

/-- C10 witness: a concrete successful merge-store at table `"bundles"` whose
only observable write is at (`"genesis"`, `kex`). -/
theorem c10_store_merge_frame_witness :
    Db.BUNDLES ≠ Db.GENESIS ∧
    Db.store_merge pairCodec rootMerge Db.BUNDLES kex (1, 2) s0conflict =
      .ok (StoreMap.put s0conflict Db.GENESIS kex [1, 2]) ∧
    Db.retrieve pairCodec Db.BUNDLES kex
        (StoreMap.put s0conflict Db.GENESIS kex [1, 2]) =
      Db.retrieve pairCodec Db.BUNDLES kex s0conflict ∧
    StoreMap.put s0conflict Db.GENESIS kex [1, 2] Db.GENESIS kex =
      some [1, 2] := by
  have hfr := c10_store_merge_frame pairCodec rootMerge Db.BUNDLES kex (1, 2)
    s0conflict (StoreMap.put s0conflict Db.GENESIS kex [1, 2])
    (by decide) (Or.inl rfl)
  exact ⟨by decide, rfl, hfr.1, StoreMap.put_self _ _ _ _⟩
